import Mathlib

/-!
Verification of the ProCheck ingestion-and-generation pipeline
(`backend/services/document_processor.py`, `backend/services/upload_protocol_generator.py`,
`backend/main.py`) against its natural-language specification.

The Python code is shallowly embedded: the mutable registry state of
`DocumentProcessor` (`active_tasks`, `cancelled_uploads`) and the preview store
become an explicit `ProcState` record threaded through the operations; external
collaborators (the generative model, the search index, the PDF libraries, the
zip library) become function parameters or small inductive types at the exact
call boundary of the source.
-/

namespace ProCheck

/-- An asyncio task handle as seen by the registry: whether `task.done()` holds
and whether `task.cancel()` has been requested. -/
structure TaskInfo where
  done : Bool
  cancelRequested : Bool
deriving Repr, DecidableEq

/-- A generated-protocol checklist step as parsed from the model JSON:
`item.get("text", ...)`, `item.get("explanation", "")`, `item.get("citation", 0)`.
A missing `explanation` key is the empty string; a missing `citation` key is `0`. -/
structure StepItem where
  text : String
  explanation : String
  citation : Int
deriving Repr, DecidableEq

/-- One entry of the parsed `checklist` array.  The source skips entries that
are not JSON dictionaries (`if not isinstance(item, dict): continue`); such an
entry is modelled as `none` (it still counts toward `total_steps`). -/
def ChecklistItem : Type := Option StepItem
deriving instance Repr, DecidableEq for ChecklistItem

/-- A protocol as assembled by `generate_protocols_from_chunks` and stored in a
preview record (the fields the lifecycle claims inspect). -/
structure Protocol where
  protocol_id : String
  title : String
  steps : List ChecklistItem
  intent : String
deriving Repr, DecidableEq

/-- The JSON object written to `uploads/previews/{user_id}_{upload_id}.json` by
`store_protocols_for_preview`: a status tag and the protocol list. -/
structure PreviewRecord where
  status : String
  protocols : List Protocol
deriving Repr, DecidableEq

/-- The mutable state of the `DocumentProcessor` singleton:
`self.active_tasks` (upload_key -> asyncio.Task), `self.cancelled_uploads`
(a set of upload_keys), and the preview-file directory keyed by upload_key. -/
structure ProcState where
  activeTasks : List (String × TaskInfo)
  cancelledUploads : List String
  previews : List (String × PreviewRecord)
deriving Repr, DecidableEq

/-- `upload_key = f"{user_id}_{upload_id}"`. -/
def uploadKey (userId uploadId : String) : String :=
  userId ++ "_" ++ uploadId

/-- Association-list lookup in `self.active_tasks`. -/
def lookupTask (s : ProcState) (key : String) : Option TaskInfo :=
  (s.activeTasks.find? (fun p => p.1 == key)).map (fun p => p.2)

/-- Association-list lookup of the preview file for a key
(`None` models a missing file). -/
def lookupPreview (s : ProcState) (key : String) : Option PreviewRecord :=
  (s.previews.find? (fun p => p.1 == key)).map (fun p => p.2)

/-- `store_protocols_for_preview`: overwrites the preview file for the key
(last write wins). -/
def setPreview (s : ProcState) (key : String) (r : PreviewRecord) : ProcState :=
  { s with previews := (key, r) :: s.previews.filter (fun p => p.1 ≠ key) }

/-- Deletion of the preview file (`os.remove` in `approve_and_index_protocols`
and `delete_preview_file`). -/
def deletePreview (s : ProcState) (key : String) : ProcState :=
  { s with previews := s.previews.filter (fun p => p.1 ≠ key) }

/-- Overwrite the task entry for a key in `self.active_tasks`. -/
def setTask (s : ProcState) (key : String) (t : TaskInfo) : ProcState :=
  { s with activeTasks := (key, t) :: s.activeTasks.filter (fun p => p.1 ≠ key) }

/-- `_is_upload_cancelled`: membership of the upload key in
`self.cancelled_uploads`. -/
def isUploadCancelled (s : ProcState) (userId uploadId : String) : Bool :=
  uploadKey userId uploadId ∈ s.cancelledUploads

/-- The `finally` block of `process_upload` plus the `add_done_callback` cleanup
in `main.py`: when the owning task finishes (success, failure, or cancellation)
the upload key is discarded from `self.cancelled_uploads` and removed from
`self.active_tasks`. -/
def finishTask (s : ProcState) (key : String) : ProcState :=
  { s with
    cancelledUploads := s.cancelledUploads.filter (fun k => k ≠ key),
    activeTasks := s.activeTasks.filter (fun p => p.1 ≠ key) }

/-- `DocumentProcessor.cancel_upload`.  It first adds the key to
`cancelled_uploads`, then inspects `self.active_tasks`: if an active task exists
and `task.done()` is false it calls `task.cancel()`, writes a `cancelled`
preview record with an empty protocol list, and returns `True`; otherwise it
returns `False`.  The whole body is wrapped in `try/except ... return False`,
so the operation is total (never throws), which the embedding reflects by being
a Lean function. -/
def cancel_upload (s : ProcState) (userId uploadId : String) : ProcState × Bool :=
  let key := uploadKey userId uploadId
  let s1 : ProcState := { s with cancelledUploads := key :: s.cancelledUploads }
  match lookupTask s1 key with
  | some t =>
      if t.done then (s1, false)
      else
        let s2 := setTask s1 key { t with cancelRequested := true }
        let s3 := setPreview s2 key { status := "cancelled", protocols := [] }
        (s3, true)
  | none => (s1, false)

/-- `get_preview_protocols`: read the preview file; a missing file yields
status `not_found` and an empty list. -/
def get_preview_protocols (s : ProcState) (userId uploadId : String) :
    String × List Protocol :=
  match lookupPreview s (uploadKey userId uploadId) with
  | none => ("not_found", [])
  | some r => (r.status, r.protocols)

/-- Result of `approve_and_index_protocols`.  `protocolsIndexed = none` models
the absence of the `protocols_indexed` key in the returned dict (the rejection
branch performs no indexing at all). -/
structure ApproveResult where
  success : Bool
  message : String
  protocolsIndexed : Option Nat
deriving Repr, DecidableEq

/-- `DocumentProcessor.approve_and_index_protocols`.  The external indexing
bridge (`validate_and_index_protocols` / Elasticsearch) is abstracted as the
parameter `indexCount`; it is only invoked when the stored protocol list is
non-empty.  In both branches the preview file is removed. -/
def approve_and_index_protocols (s : ProcState) (userId uploadId : String)
    (indexCount : List Protocol → Nat) : ProcState × ApproveResult :=
  let key := uploadKey userId uploadId
  let protocols := (get_preview_protocols s userId uploadId).2
  if protocols.isEmpty then
    (deletePreview s key,
     { success := false, message := "No protocols found for indexing", protocolsIndexed := none })
  else
    let n := indexCount protocols
    (deletePreview s key,
     { success := true,
       message := "Successfully indexed " ++ toString n ++ " protocols",
       protocolsIndexed := some n })

/-- Result of the status-poll endpoint (`get_upload_status` in `main.py`). -/
structure StatusResult where
  status : String
  progress : Nat
deriving Repr, DecidableEq

/-- `main.get_upload_status`: if the key has an active task that is not done,
report `processing`/50; in every other case (done task, or no entry at all)
report `awaiting_approval`/100. -/
def get_upload_status (s : ProcState) (userId uploadId : String) : StatusResult :=
  match lookupTask s (uploadKey userId uploadId) with
  | some t => if ¬ t.done then { status := "processing", progress := 50 }
              else { status := "awaiting_approval", progress := 100 }
  | none => { status := "awaiting_approval", progress := 100 }

/-- The registry state visible to `main.upload_documents`: the tracked map
`active_tasks` (upload_key -> task id), the set of tasks that have been created
and not yet finished (each remembers the upload key it serves), and the set of
task ids that have received a cancellation request. -/
structure MainRegistry where
  activeTasks : List (String × Nat)
  liveTasks : List (Nat × String)
  cancelRequests : List Nat
deriving Repr, DecidableEq

/-- `main.upload_documents` registration step: `asyncio.create_task` starts a
fresh task (id `tid`) running `process_upload` for the key, and
`document_processor.active_tasks[upload_key] = task` overwrites any existing
entry.  Nothing cancels, awaits, or cleans up a previously registered task. -/
def upload_register (r : MainRegistry) (key : String) (tid : Nat) : MainRegistry :=
  { r with
    activeTasks := (key, tid) :: r.activeTasks.filter (fun p => p.1 ≠ key),
    liveTasks := (tid, key) :: r.liveTasks }

/-- Tracked task id for a key in the `MainRegistry`. -/
def mainLookup (r : MainRegistry) (key : String) : Option Nat :=
  (r.activeTasks.find? (fun p => p.1 == key)).map (fun p => p.2)

/- ### Semantic chunker (`create_semantic_chunks`) -/

/-- An extracted document as consumed by the chunker: `{"filename": ...,
"text": ...}`.  The Python `str` is modelled as a list of characters. -/
structure Document where
  filename : String
  text : List Char
deriving Repr, DecidableEq

/-- A chunk dict as produced by `create_semantic_chunks`. -/
structure Chunk where
  chunk_id : String
  source_file : String
  text : List Char
  char_count : Nat
  word_count : Nat
  chunk_index : Nat
deriving Repr, DecidableEq

/-- Python `str.strip()`: drop whitespace from both ends. -/
def pyStrip (l : List Char) : List Char :=
  ((l.dropWhile Char.isWhitespace).reverse.dropWhile Char.isWhitespace).reverse

/-- Helper for `len(s.split())`: counts maximal non-whitespace runs; the flag
records whether the previous character was inside a word. -/
def countWordsAux : List Char → Bool → Nat
  | [], _ => 0
  | c :: rest, inWord =>
      if c.isWhitespace then countWordsAux rest false
      else (if inWord then 0 else 1) + countWordsAux rest true

/-- Python `len(s.split())`. -/
def pyWordCount (l : List Char) : Nat := countWordsAux l false

/-- `chunk_size = 2000  # Characters per chunk`. -/
def chunk_size : Nat := 2000

/-- `overlap = 200  # Character overlap between chunks`. -/
def overlap : Nat := 200

/-- `sentence_endings = ['. ', '.\n', '! ', '!\n', '? ', '?\n']`. -/
def sentence_endings : List (List Char) :=
  [['.', ' '], ['.', '\n'], ['!', ' '], ['!', '\n'], ['?', ' '], ['?', '\n']]

/-- Python `text[i:i+len(ending)] == ending` (a slice reaching past the end of
the string is shorter than the pattern and therefore unequal). -/
def matchesAt (text : List Char) (i : Nat) (pat : List Char) : Bool :=
  (text.drop i).take pat.length == pat

/-- The inner `for ending in sentence_endings` loop at one scan position: the
first matching ending sets `best_break = i + len(ending)` and breaks. -/
def findEndingAt (text : List Char) (i : Nat) : Option Nat :=
  (sentence_endings.find? (fun pat => matchesAt text i pat)).map (fun pat => i + pat.length)

/-- The outer `for i in range(lo, hi)` scan: `steps` counts the remaining
positions.  A match whose break position happens to equal the raw boundary
leaves `best_break == end`, so the outer `if best_break != end: break` does not
fire and scanning continues — exactly as in the source. -/
def scanAux (text : List Char) (endRaw : Nat) : Nat → Nat → Nat
  | _, 0 => endRaw
  | i, steps + 1 =>
      match findEndingAt text i with
      | some b => if b ≠ endRaw then b else scanAux text endRaw (i + 1) steps
      | none => scanAux text endRaw (i + 1) steps

/-- One window-boundary computation of `create_semantic_chunks`:
`end = start + chunk_size`, and when `end < len(text)` the boundary is replaced
by the result of scanning `range(max(start + chunk_size - 200, start),
min(end + 100, len(text)))` for a sentence ending. -/
def snapEnd (text : List Char) (start : Nat) : Nat :=
  let endRaw := start + chunk_size
  if endRaw < text.length then
    let lo := max (start + chunk_size - 200) start
    let hi := min (endRaw + 100) text.length
    scanAux text endRaw lo (hi - lo)
  else endRaw

/-- The chunk dict appended for one accepted window (`idx` is
`len(text_chunks)` at append time). -/
def mkChunk (filename : String) (chunkText : List Char) (idx : Nat) : Chunk :=
  { chunk_id := filename ++ "_" ++ toString idx,
    source_file := filename,
    text := chunkText,
    char_count := chunkText.length,
    word_count := pyWordCount chunkText,
    chunk_index := idx }

/-- The `while start < len(text)` loop of `create_semantic_chunks` for one
document.  Each iteration advances `start` by at least `chunk_size - overlap -
101 > 0` characters, so `text.length + 1` units of fuel always suffice. -/
def chunkLoopAux (filename : String) (text : List Char) :
    Nat → Nat → List Chunk → List Chunk
  | _, 0, acc => acc
  | start, fuel + 1, acc =>
      if start < text.length then
        let e := snapEnd text start
        let chunkText := pyStrip ((text.drop start).take (e - start))
        let acc' := if 100 < chunkText.length then
            acc ++ [mkChunk filename chunkText acc.length] else acc
        let start' := if e < text.length then e - overlap else e
        if start' ≥ text.length then acc'
        else chunkLoopAux filename text start' fuel acc'
      else acc

/-- All chunks of one document, in production order (`chunk_index` counts the
accepted chunks of this document from 0). -/
def chunkDoc (d : Document) : List Chunk :=
  chunkLoopAux d.filename d.text 0 (d.text.length + 1) []

/-- `DocumentProcessor.create_semantic_chunks`: documents are processed in
order and their chunks appended to one list. -/
def create_semantic_chunks (docs : List Document) : List Chunk :=
  (docs.map chunkDoc).flatten

/- ### Upload protocol generator (`upload_protocol_generator.py`) -/

/-- Python `str.strip()` on the `String` type, via the character-list model. -/
def pyStripStr (s : String) : String := ⟨pyStrip s.data⟩

/-- Python `str.title()`: the first letter of each alphabetic run is
upper-cased, the rest lower-cased. -/
def pyTitleAux : List Char → Bool → List Char
  | [], _ => []
  | c :: rest, prevAlpha =>
      (if c.isAlpha then (if prevAlpha then c.toLower else c.toUpper) else c) ::
        pyTitleAux rest c.isAlpha

/-- Python `str.title()`. -/
def pyTitle (s : String) : String := ⟨pyTitleAux s.data false⟩

/-- The parsed JSON object of one model response: `data.get("title", ...)` may
be absent (`none`); `data.get("checklist", [])` and `data.get("citations", [])`
default to empty lists. -/
structure ProtocolData where
  title : Option String
  checklist : List ChecklistItem
  citations : List String
deriving Repr, DecidableEq

/-- `missing_explanations` of `_validate_protocol_response`: dict items whose
stripped `explanation` is empty or shorter than 10 characters
(`if not explanation or len(explanation) < 10`). -/
def missingExplanations (d : ProtocolData) : Nat :=
  (d.checklist.filterMap id).countP (fun st => (pyStripStr st.explanation).length < 10)

/-- `missing_citations` of `_validate_protocol_response`: dict items whose
`citation` value (default 0) equals 0. -/
def missingCitations (d : ProtocolData) : Nat :=
  (d.checklist.filterMap id).countP (fun st => st.citation == 0)

/-- `_validate_protocol_response`: an empty checklist is valid; a non-empty
checklist with an empty citations array is invalid; otherwise the protocol is
rejected only when more than 50% of its steps miss explanations, or more than
50% miss citations (`missing > total_steps * 0.5`, i.e. `2 * missing > total`,
exact since `total * 0.5` is an exact float). -/
def validate_protocol_response (d : ProtocolData) : Bool × String :=
  if d.checklist.isEmpty then (true, "")
  else if d.citations.isEmpty then (false, "Has steps but no citations array")
  else
    let me := missingExplanations d
    let mc := missingCitations d
    let total := d.checklist.length
    if 2 * me > total then
      (false, toString me ++ "/" ++ toString total ++ " steps missing explanations")
    else if 2 * mc > total then
      (false, toString mc ++ "/" ++ toString total ++ " steps missing citations")
    else (true, "")

/-- Outcome of one `_model.generate_content` call plus the response-to-JSON
stage, at the library boundary: the call raised, returned empty text, returned
text that fails `json.loads` (after the markdown/brace cleanup), or parsed to
a JSON object. -/
inductive ModelResponse where
  | raiseErr (msg : String)
  | emptyText
  | parseFail (msg : String)
  | parsed (d : ProtocolData)
deriving Repr, DecidableEq

/-- The dict returned by `generate_protocol_from_chunk`: exactly the keys
`title`, `checklist`, `citations` — there is no completeness-flag field. -/
structure GenOut where
  title : String
  checklist : List ChecklistItem
  citations : List String
deriving Repr, DecidableEq

/-- `max_retries = 1` in `generate_protocol_from_chunk`. -/
def max_retries : Nat := 1

/-- The `for attempt in range(max_retries)` loop of
`generate_protocol_from_chunk`.  Every failure mode (`raiseErr`, empty text,
JSON parse error) moves to the next attempt (equivalently, falls out of the
loop into the fallback).  A parsed response that fails validation is retried
only while `attempt < max_retries - 1`; otherwise — including on the final
attempt — the parsed data is returned as-is, unflagged.  Exhausting the list
yields the fallback empty protocol. -/
def genAttemptLoop (model : Nat → ModelResponse) (protocol_type source_file : String) :
    List Nat → GenOut
  | [] =>
      { title := pyTitle protocol_type ++ " Protocol from " ++ source_file,
        checklist := [], citations := [] }
  | attempt :: rest =>
      match model attempt with
      | .raiseErr _ => genAttemptLoop model protocol_type source_file rest
      | .emptyText => genAttemptLoop model protocol_type source_file rest
      | .parseFail _ => genAttemptLoop model protocol_type source_file rest
      | .parsed d =>
          if (validate_protocol_response d).1 = false ∧ attempt < max_retries - 1 then
            genAttemptLoop model protocol_type source_file rest
          else
            { title := pyStripStr (d.title.getD (pyTitle protocol_type ++ " Protocol")),
              checklist := d.checklist,
              citations := d.citations }

/-- `generate_protocol_from_chunk`, with the external model abstracted as a
function from attempt number to response outcome. -/
def generate_protocol_from_chunk (model : Nat → ModelResponse)
    (protocol_type source_file : String) : GenOut :=
  genAttemptLoop model protocol_type source_file (List.range max_retries)

/- ### Multi-pass generator (`generate_protocols_from_chunks`) -/

/-- The `protocol_types` table: (focus, prompt) pairs, in iteration order. -/
def protocol_types : List (String × String) :=
  [("diagnostic", "Extract diagnostic protocols and assessment procedures"),
   ("treatment", "Extract treatment protocols and intervention procedures"),
   ("emergency", "Extract emergency protocols and critical care procedures"),
   ("prevention", "Extract preventive protocols and prophylactic measures")]

/-- The protocol dict appended for one accepted (chunk, category) result;
`n` is `len(protocols)` at append time. -/
def mkUploadProtocol (user_id : String) (n : Nat) (focus : String) (r : GenOut) : Protocol :=
  { protocol_id := "user_" ++ user_id ++ "_" ++ toString n ++ "_" ++ focus,
    title := r.title,
    steps := r.checklist,
    intent := focus }

/-- The inner `for protocol_idx, protocol_type in enumerate(protocol_types)`
loop of `generate_protocols_from_chunks` for one chunk.  The call to
`generate_protocol_from_chunk` (run in a thread, may raise) is abstracted as
`gen chunkIdx typeIdx`; a raised exception is caught and the pair skipped
(`except Exception: continue`); a result with an empty checklist is skipped;
cancellation (checked before each call) aborts with `None`. -/
def genTypesLoop (gen : Nat → Nat → Except String GenOut) (cancelled : Bool)
    (user_id : String) (chunkIdx : Nat) :
    List (Nat × (String × String)) → List Protocol → Option (List Protocol)
  | [], acc => some acc
  | (typeIdx, pt) :: rest, acc =>
      if cancelled then none
      else
        match gen chunkIdx typeIdx with
        | .error _ => genTypesLoop gen cancelled user_id chunkIdx rest acc
        | .ok r =>
            if r.checklist.isEmpty then genTypesLoop gen cancelled user_id chunkIdx rest acc
            else genTypesLoop gen cancelled user_id chunkIdx rest
              (acc ++ [mkUploadProtocol user_id acc.length pt.1 r])

/-- The outer `for chunk_idx, chunk in enumerate(chunks[:5])` loop, with the
cancellation check at the start of each chunk. -/
def genChunksLoop (gen : Nat → Nat → Except String GenOut) (cancelled : Bool)
    (user_id : String) :
    List (Nat × Chunk) → List Protocol → Option (List Protocol)
  | [], acc => some acc
  | (chunkIdx, _) :: rest, acc =>
      if cancelled then none
      else
        match genTypesLoop gen cancelled user_id chunkIdx protocol_types.enum acc with
        | none => none
        | some acc2 => genChunksLoop gen cancelled user_id rest acc2

/-- `DocumentProcessor.generate_protocols_from_chunks`: the first 5 chunks are
crossed with the four protocol types; `None` signals cancellation. -/
def generate_protocols_from_chunks (gen : Nat → Nat → Except String GenOut)
    (cancelled : Bool) (chunks : List Chunk) (user_id : String) :
    Option (List Protocol) :=
  genChunksLoop gen cancelled user_id (chunks.take 5).enum []

/-- The accumulator-independent fields of a produced protocol (its
`protocol_id` embeds the running count and is the only field that depends on
earlier pairs). -/
structure ProtocolCore where
  title : String
  steps : List ChecklistItem
  intent : String
deriving Repr, DecidableEq

/-- Projection of a produced protocol to its accumulator-independent fields. -/
def protocolCore (p : Protocol) : ProtocolCore :=
  { title := p.title, steps := p.steps, intent := p.intent }

/-- The contribution of one (chunk, category) pair, in isolation: nothing for
a raised call or an empty checklist, otherwise one protocol core. -/
def acceptedOfPair (gen : Nat → Nat → Except String GenOut)
    (chunkIdx typeIdx : Nat) (focus : String) : Option ProtocolCore :=
  match gen chunkIdx typeIdx with
  | .error _ => none
  | .ok r =>
      if r.checklist.isEmpty then none
      else some { title := r.title, steps := r.checklist, intent := focus }

/-- The per-pair specification of the whole multi-pass run: each (chunk in the
first five, category) pair contributes independently of every other pair. -/
def expectedCores (gen : Nat → Nat → Except String GenOut) (chunks : List Chunk) :
    List ProtocolCore :=
  ((chunks.take 5).enum.map (fun p =>
    protocol_types.enum.filterMap (fun q => acceptedOfPair gen p.1 q.1 q.2.1))).flatten

/- ### Archive extraction (`extract_zip`) and the pipeline driver -/

/-- One entry of the uploaded archive, as exposed by `zipfile`:
`file_info.filename`, `file_info.is_dir()`, and its byte content. -/
structure ZipEntry where
  filename : String
  isDir : Bool
  content : List Nat
deriving Repr, DecidableEq

/-- The uploaded bytes at the `zipfile.ZipFile` boundary: either the library
raises `BadZipFile` (malformed) or exposes a list of entries. -/
inductive ZipArchive where
  | malformed
  | wellformed (entries : List ZipEntry)
deriving Repr, DecidableEq

/-- The entry filter of `extract_zip`:
`file_info.filename.lower().endswith('.pdf') and not file_info.is_dir()`. -/
def pdfEntryMatch (e : ZipEntry) : Bool :=
  e.filename.toLower.endsWith ".pdf" && !e.isDir

/-- `os.path.basename`: the suffix after the last `/`. -/
def pyBasename (s : String) : String :=
  ⟨s.data.foldl (fun acc c => if c = '/' then [] else acc ++ [c]) []⟩

/-- `original_filename.replace('/', '_').replace('\\', '_')`. -/
def sanitizeFilename (s : String) : String :=
  ⟨s.data.map (fun c => if c = '/' ∨ c = '\\' then '_' else c)⟩

/-- One extracted `pdf_files` element of `extract_zip`. -/
structure PdfFile where
  filename : String
  safe_filename : String
  size : Nat
  content : List Nat
deriving Repr, DecidableEq

/-- `DocumentProcessor.extract_zip`: a malformed archive raises
`ValueError("Invalid ZIP file format")`; entries are filtered to non-directory
`.pdf` names (case-insensitive); if no entry survives the filter it raises
`ValueError("No PDF files found in ZIP archive")`.  Raised `ValueError`s are
modelled as `Except.error`. -/
def extract_zip (a : ZipArchive) : Except String (List PdfFile) :=
  match a with
  | .malformed => .error "Invalid ZIP file format"
  | .wellformed entries =>
      let pdf_files := entries.filterMap (fun e =>
        if pdfEntryMatch e then
          some { filename := e.filename,
                 safe_filename := sanitizeFilename (pyBasename e.filename),
                 size := e.content.length,
                 content := e.content }
        else none)
      if pdf_files.isEmpty then .error "No PDF files found in ZIP archive"
      else .ok pdf_files

/-- The dict returned by `process_upload`.  The cooperative-cancellation
returns carry no `success` key, modelled as `none`. -/
structure UploadResult where
  success : Option Bool
  status : String
deriving Repr, DecidableEq

/-- `DocumentProcessor.process_upload`, sequentially: extract the archive
(an extraction error is caught by `except Exception` and yields status
`failed`), check cancellation between stages, extract text (abstracted as
`extractDocs`), chunk, generate (a `None` result signals cancellation), store
the preview, and in every path run the `finally` cleanup (`finishTask`). -/
def process_upload (s : ProcState) (userId uploadId : String) (archive : ZipArchive)
    (extractDocs : List PdfFile → List Document)
    (gen : Nat → Nat → Except String GenOut) : ProcState × UploadResult :=
  let key := uploadKey userId uploadId
  match extract_zip archive with
  | .error _ => (finishTask s key, { success := some false, status := "failed" })
  | .ok pdf_files =>
      if isUploadCancelled s userId uploadId then
        (finishTask s key, { success := none, status := "cancelled" })
      else
        let documents := extractDocs pdf_files
        if isUploadCancelled s userId uploadId then
          (finishTask s key, { success := none, status := "cancelled" })
        else
          let chunks := create_semantic_chunks documents
          if isUploadCancelled s userId uploadId then
            (finishTask s key, { success := none, status := "cancelled" })
          else
            match generate_protocols_from_chunks gen
                (isUploadCancelled s userId uploadId) chunks userId with
            | none => (finishTask s key, { success := none, status := "cancelled" })
            | some protocols =>
                if isUploadCancelled s userId uploadId then
                  (finishTask s key, { success := none, status := "cancelled" })
                else
                  let s2 := setPreview s key { status := "completed", protocols := protocols }
                  (finishTask s2 key, { success := some true, status := "awaiting_approval" })

end ProCheck

namespace ProCheck

/- ### Helper lemmas about the registry operations -/

/-- Filtering out every pair with a given key leaves nothing for `find?` to
locate under that key. -/
theorem find?_filter_self_none {α : Type} (key : String) (l : List (String × α)) :
    (l.filter (fun p => p.1 ≠ key)).find? (fun p => p.1 == key) = none := by
  induction l with
  | nil => rfl
  | cons a l ih =>
      by_cases ha : a.1 = key
      · simp [List.filter_cons, ha, ih]
      · simp [List.filter_cons, ha, List.find?_cons, ih]

/-- After the guaranteed cleanup, the key has no task entry. -/
theorem lookupTask_finishTask (s : ProcState) (key : String) :
    lookupTask (finishTask s key) key = none := by
  simp only [lookupTask, finishTask]
  rw [find?_filter_self_none]
  rfl

/-- After the guaranteed cleanup, the cancellation flag for the key is clear. -/
theorem not_cancelled_finishTask (s : ProcState) (key : String) :
    key ∉ (finishTask s key).cancelledUploads := by
  simp [finishTask]

/-- `cancel_upload` when no task is registered for the key: the flag is set and
the call returns `false`. -/
theorem cancel_upload_of_none (s : ProcState) (u i : String)
    (h : lookupTask s (uploadKey u i) = none) :
    cancel_upload s u i =
      ({ s with cancelledUploads := uploadKey u i :: s.cancelledUploads }, false) := by
  have h' : lookupTask { s with cancelledUploads := uploadKey u i :: s.cancelledUploads }
      (uploadKey u i) = none := h
  simp only [cancel_upload]
  rw [h']

/-- `cancel_upload` when the registered task is already done: the flag is set
and the call returns `false`. -/
theorem cancel_upload_of_done (s : ProcState) (u i : String) (t : TaskInfo)
    (h : lookupTask s (uploadKey u i) = some t) (hd : t.done = true) :
    cancel_upload s u i =
      ({ s with cancelledUploads := uploadKey u i :: s.cancelledUploads }, false) := by
  have h' : lookupTask { s with cancelledUploads := uploadKey u i :: s.cancelledUploads }
      (uploadKey u i) = some t := h
  simp only [cancel_upload]
  rw [h']
  simp [hd]

/-- `cancel_upload` when the registered task is still running: the flag is set,
cancellation is requested, a `cancelled` preview record is written, and the
call returns `true`. -/
theorem cancel_upload_of_active (s : ProcState) (u i : String) (t : TaskInfo)
    (h : lookupTask s (uploadKey u i) = some t) (hd : t.done = false) :
    cancel_upload s u i =
      (setPreview
        (setTask { s with cancelledUploads := uploadKey u i :: s.cancelledUploads }
          (uploadKey u i) { t with cancelRequested := true })
        (uploadKey u i) { status := "cancelled", protocols := [] }, true) := by
  have h' : lookupTask { s with cancelledUploads := uploadKey u i :: s.cancelledUploads }
      (uploadKey u i) = some t := h
  simp only [cancel_upload]
  rw [h']
  simp [hd]

/-- The state written by a successful cancellation still holds the running
task entry (now with `cancelRequested`) under the key. -/
theorem lookupTask_after_active_cancel (s : ProcState) (u i : String) (t : TaskInfo)
    (h : lookupTask s (uploadKey u i) = some t) (hd : t.done = false) :
    lookupTask (cancel_upload s u i).1 (uploadKey u i) =
      some { t with cancelRequested := true } := by
  rw [cancel_upload_of_active s u i t h hd]
  simp [setPreview, setTask, lookupTask, List.find?_cons]

/- ### Claims C1, C2, C5, C10 -/

/-- A concrete registry state with one active, not-yet-done task for key
`"u_a"`. -/
def c1State : ProcState :=
  { activeTasks := [("u_a", { done := false, cancelRequested := false })],
    cancelledUploads := [],
    previews := [] }

/-- C1 (counterexample): the claim says the second of two back-to-back `cancel`
calls returns `false`.  In the code the task stays in `active_tasks` and is not
`done()` right after `task.cancel()` is requested, so a second immediate
`cancel_upload` finds the same active task and returns `true` again. -/
theorem c1_counterexample :
    (cancel_upload c1State "u" "a").2 = true ∧
    (cancel_upload (cancel_upload c1State "u" "a").1 "u" "a").2 = true := by
  decide

/-- C1 (amended): cancellation never throws (the operation is total); a
`cancel` call issued after the owning task has finished (its guaranteed cleanup
having run) returns `false`; that cleanup removes both the task entry and the
cancellation flag, so the key is immediately reusable; but a second `cancel`
issued while the task is still registered and not done returns `true` again,
not `false`. -/
theorem c1_amended_cancel_idempotence :
    (∀ (s : ProcState) (u i : String),
      (cancel_upload (finishTask s (uploadKey u i)) u i).2 = false) ∧
    (∀ (s : ProcState) (u i : String),
      uploadKey u i ∉ (finishTask s (uploadKey u i)).cancelledUploads ∧
      lookupTask (finishTask s (uploadKey u i)) (uploadKey u i) = none) ∧
    (∀ (s : ProcState) (u i : String) (t : TaskInfo),
      lookupTask s (uploadKey u i) = some t → t.done = false →
      (cancel_upload s u i).2 = true ∧
      (cancel_upload (cancel_upload s u i).1 u i).2 = true) := by
  refine ⟨?_, ?_, ?_⟩
  · intro s u i
    rw [cancel_upload_of_none _ u i (lookupTask_finishTask s (uploadKey u i))]
  · intro s u i
    exact ⟨not_cancelled_finishTask s (uploadKey u i), lookupTask_finishTask s (uploadKey u i)⟩
  · intro s u i t hfind hdone
    refine ⟨?_, ?_⟩
    · rw [cancel_upload_of_active s u i t hfind hdone]
    · have h2 := lookupTask_after_active_cancel s u i t hfind hdone
      rw [cancel_upload_of_active _ u i { t with cancelRequested := true } h2 hdone]

/-- C1 amended, witnessed on `c1State`: cancel-after-finish returns `false`,
the finished key is cleared, and two immediate cancels both return `true`. -/
theorem c1_amended_witness :
    (cancel_upload (finishTask c1State (uploadKey "u" "a")) "u" "a").2 = false ∧
    ((cancel_upload c1State "u" "a").2 = true ∧
     (cancel_upload (cancel_upload c1State "u" "a").1 "u" "a").2 = true) :=
  ⟨c1_amended_cancel_idempotence.1 c1State "u" "a",
   c1_amended_cancel_idempotence.2.2 c1State "u" "a"
     { done := false, cancelRequested := false } rfl rfl⟩

/-- C2: after a successful cancellation (`cancel_upload` returned `true`) the
stored preview record for the key has status `cancelled` and an empty protocol
list, and a subsequent `approve_and_index_protocols` call is rejected with
`success = false` and message "No protocols found for indexing", without ever
invoking the indexing bridge (`protocolsIndexed = none`). -/
theorem c2_no_ghost_protocols (s : ProcState) (u i : String)
    (h : (cancel_upload s u i).2 = true) :
    lookupPreview (cancel_upload s u i).1 (uploadKey u i) =
      some { status := "cancelled", protocols := [] } ∧
    ∀ indexCount : List Protocol → Nat,
      (approve_and_index_protocols (cancel_upload s u i).1 u i indexCount).2 =
        { success := false, message := "No protocols found for indexing",
          protocolsIndexed := none } := by
  have hpreview : lookupPreview (cancel_upload s u i).1 (uploadKey u i) =
      some { status := "cancelled", protocols := [] } := by
    cases hfind : lookupTask s (uploadKey u i) with
    | none => rw [cancel_upload_of_none s u i hfind] at h; simp at h
    | some t =>
        by_cases hd : t.done
        · rw [cancel_upload_of_done s u i t hfind hd] at h; simp at h
        · rw [cancel_upload_of_active s u i t hfind (by simpa using hd)]
          simp [setPreview, lookupPreview, List.find?_cons]
  refine ⟨hpreview, ?_⟩
  intro indexCount
  simp [approve_and_index_protocols, get_preview_protocols, hpreview]

/-- C2 witnessed on `c1State`: the concrete cancelled record and the concrete
rejected approval. -/
theorem c2_witness :
    lookupPreview (cancel_upload c1State "u" "a").1 (uploadKey "u" "a") =
      some { status := "cancelled", protocols := [] } ∧
    (approve_and_index_protocols (cancel_upload c1State "u" "a").1 "u" "a"
        (fun ps => ps.length)).2 =
      { success := false, message := "No protocols found for indexing",
        protocolsIndexed := none } :=
  ⟨(c2_no_ghost_protocols c1State "u" "a" (by decide)).1,
   (c2_no_ghost_protocols c1State "u" "a" (by decide)).2 (fun ps => ps.length)⟩

/-- A concrete `MainRegistry` with one live task (id 1) registered for key
`"u_a"`. -/
def c5Registry : MainRegistry :=
  { activeTasks := [("u_a", 1)], liveTasks := [(1, "u_a")], cancelRequests := [] }

/-- C5 (counterexample): the claim says registering a second upload under an
in-use key either supersedes the prior task with its cleanup run, or is
rejected, and never yields two concurrently running tasks for the key.  In the
code `upload_documents` just overwrites `active_tasks[upload_key]` with the new
task: after registering task 2 under the in-use key `"u_a"`, both task 1 and
task 2 are live for that key, task 1 received no cancellation request, and the
registration was not rejected (the map now tracks task 2). -/
theorem c5_counterexample :
    (1, "u_a") ∈ (upload_register c5Registry "u_a" 2).liveTasks ∧
    (2, "u_a") ∈ (upload_register c5Registry "u_a" 2).liveTasks ∧
    (upload_register c5Registry "u_a" 2).cancelRequests = [] ∧
    mainLookup (upload_register c5Registry "u_a" 2) "u_a" = some 2 := by
  decide

/-- C5 (amended): registering a second upload under an in-use key overwrites
the registry entry with the new task; the prior task is neither cancelled nor
awaited and keeps running, so two tasks may run concurrently for the same
(userId, uploadId) key, with only the newest one tracked for cancellation. -/
theorem c5_amended_register_overwrites (r : MainRegistry) (key : String)
    (tid told : Nat) (_hlook : mainLookup r key = some told)
    (hlive : (told, key) ∈ r.liveTasks) :
    mainLookup (upload_register r key tid) key = some tid ∧
    (told, key) ∈ (upload_register r key tid).liveTasks ∧
    (tid, key) ∈ (upload_register r key tid).liveTasks ∧
    (upload_register r key tid).cancelRequests = r.cancelRequests := by
  refine ⟨?_, ?_, ?_, rfl⟩
  · simp [upload_register, mainLookup, List.find?_cons]
  · simp [upload_register, hlive]
  · simp [upload_register]

/-- C5 amended, witnessed on `c5Registry`. -/
theorem c5_amended_witness :
    mainLookup (upload_register c5Registry "u_a" 2) "u_a" = some 2 ∧
    (1, "u_a") ∈ (upload_register c5Registry "u_a" 2).liveTasks ∧
    (2, "u_a") ∈ (upload_register c5Registry "u_a" 2).liveTasks ∧
    (upload_register c5Registry "u_a" 2).cancelRequests = c5Registry.cancelRequests :=
  c5_amended_register_overwrites c5Registry "u_a" 2 1 rfl (by decide)

/-- C10: for every key with no active task — never started, or whose task has
completed (including cancelled and failed outcomes, whose tasks are removed
from `active_tasks` by the done-callback/finally cleanup) — the status poll
reports `awaiting_approval` with progress 100, never `not_found`, `cancelled`,
or `failed`. -/
theorem c10_status_fallback (s : ProcState) (u i : String)
    (h : lookupTask s (uploadKey u i) = none ∨
         ∃ t, lookupTask s (uploadKey u i) = some t ∧ t.done = true) :
    get_upload_status s u i = { status := "awaiting_approval", progress := 100 } := by
  rcases h with h | ⟨t, ht, hdone⟩
  · simp [get_upload_status, h]
  · simp [get_upload_status, ht, hdone]

/-- C10 witnessed on a state with no entry for the polled key. -/
theorem c10_witness :
    get_upload_status { activeTasks := [], cancelledUploads := [], previews := [] } "u" "a" =
      { status := "awaiting_approval", progress := 100 } :=
  c10_status_fallback _ "u" "a" (Or.inl rfl)

/- ### Claims C7, C8: the semantic chunker -/

/-- Every sentence-ending pattern has length 2, so a successful match at
position `j` yields break position `j + 2`. -/
theorem findEndingAt_eq_add_two (text : List Char) (i b : Nat)
    (h : findEndingAt text i = some b) : b = i + 2 := by
  unfold findEndingAt at h
  cases hf : sentence_endings.find? (fun pat => matchesAt text i pat) with
  | none => rw [hf] at h; simp at h
  | some pat =>
      rw [hf] at h
      have hmem : pat ∈ sentence_endings := List.mem_of_find?_eq_some hf
      have hlen : pat.length = 2 := by
        fin_cases hmem <;> rfl
      simp at h
      rw [hlen] at h
      omega

/-- The scan either falls back to the raw boundary or stops at a matching
position inside the scanned range. -/
theorem scanAux_cases (text : List Char) (endRaw : Nat) :
    ∀ (steps i : Nat), scanAux text endRaw i steps = endRaw ∨
      ∃ j, i ≤ j ∧ j < i + steps ∧ scanAux text endRaw i steps = j + 2 := by
  intro steps
  induction steps with
  | zero => intro i; exact Or.inl rfl
  | succ n ih =>
      intro i
      cases hf : findEndingAt text i with
      | none =>
          rcases ih (i + 1) with h | ⟨j, hj1, hj2, hj3⟩
          · left; simp [scanAux, hf, h]
          · right; exact ⟨j, by omega, by omega, by simp [scanAux, hf]; exact hj3⟩
      | some b =>
          by_cases hb : b = endRaw
          · rcases ih (i + 1) with h | ⟨j, hj1, hj2, hj3⟩
            · left; simp [scanAux, hf, hb, h]
            · right
              refine ⟨j, by omega, by omega, ?_⟩
              simp [scanAux, hf, hb]
              exact hj3
          · right
            refine ⟨i, le_refl _, by omega, ?_⟩
            have hb2 := findEndingAt_eq_add_two text i b hf
            simp [scanAux, hf, hb]
            omega

/-- If no sentence ending matches anywhere in the scanned range, the scan
falls back to the raw boundary. -/
theorem scanAux_no_match (text : List Char) (endRaw : Nat) :
    ∀ (steps i : Nat), (∀ j, i ≤ j → j < i + steps → findEndingAt text j = none) →
      scanAux text endRaw i steps = endRaw := by
  intro steps
  induction steps with
  | zero => intro i _; rfl
  | succ n ih =>
      intro i h
      have hi : findEndingAt text i = none := h i (le_refl _) (by omega)
      simp only [scanAux, hi]
      exact ih (i + 1) (fun j hj1 hj2 => h j (by omega) (by omega))

/-- A text: 1900 letters, a sentence ending, then 300 more letters. -/
def c7Text : List Char :=
  List.replicate 1900 'a' ++ ('.' :: ' ' :: List.replicate 300 'b')

/-- The length of the counterexample text. -/
theorem c7Text_length : c7Text.length = 2202 := by
  rw [c7Text]
  simp only [List.length_append, List.length_cons, List.length_replicate]

/-- Inside the scanned range but before position 1899, two consecutive
characters of `c7Text` are letters. -/
theorem c7Text_take_two (j : Nat) (h1 : 1800 ≤ j) (h2 : j ≤ 1900) :
    (c7Text.drop j).take 2 =
      if j < 1899 then ['a', 'a'] else if j = 1899 then ['a', '.'] else ['.', ' '] := by
  have hlen : (List.replicate 1900 'a').length = 1900 := List.length_replicate 1900 'a'
  rw [c7Text, List.drop_append_of_le_length (by omega)]
  rw [List.drop_replicate]
  by_cases hc1 : j < 1899
  · rw [if_pos hc1]
    rw [List.take_append_of_le_length (by rw [List.length_replicate]; omega)]
    rw [List.take_replicate]
    have hmin : min 2 (1900 - j) = 2 := by omega
    rw [hmin]
    rfl
  · rw [if_neg hc1]
    have hj : j = 1899 ∨ j = 1900 := by omega
    rcases hj with hj | hj <;> subst hj
    · rw [if_pos rfl]
      rfl
    · rw [if_neg (by omega)]
      rfl

/-- No sentence ending matches in `c7Text` between positions 1800 and 1899. -/
theorem c7_findEnding_none (j : Nat) (h1 : 1800 ≤ j) (h2 : j < 1900) :
    findEndingAt c7Text j = none := by
  have ht := c7Text_take_two j h1 (by omega)
  have hm : ∀ pat ∈ sentence_endings, ¬ (matchesAt c7Text j pat = true) := by
    intro pat hp
    by_cases hc1 : j < 1899
    · rw [if_pos hc1] at ht
      fin_cases hp <;> simp [matchesAt, ht]
    · have hj : j = 1899 := by omega
      rw [if_neg hc1, if_pos hj] at ht
      fin_cases hp <;> simp [matchesAt, ht]
  rw [findEndingAt, List.find?_eq_none.mpr hm]
  rfl

/-- The sentence ending `'. '` matches `c7Text` at position 1900. -/
theorem c7_findEnding_at_1900 : findEndingAt c7Text 1900 = some 1902 := by
  have ht := c7Text_take_two 1900 (by omega) (by omega)
  norm_num at ht
  rw [findEndingAt, sentence_endings]
  rw [List.find?_cons_of_pos _ (by simp [matchesAt, ht])]
  rfl

/-- The scan stops at the first matching position whose break position differs
from the raw boundary, provided no earlier position matches. -/
theorem scanAux_stops (text : List Char) (endRaw : Nat) :
    ∀ (steps i k b : Nat), i ≤ k → k < i + steps →
      (∀ j, i ≤ j → j < k → findEndingAt text j = none) →
      findEndingAt text k = some b → b ≠ endRaw →
      scanAux text endRaw i steps = b := by
  intro steps
  induction steps with
  | zero => intro i k b h1 h2; omega
  | succ n ih =>
      intro i k b h1 h2 hnone hk hb
      by_cases hik : i = k
      · subst hik
        simp [scanAux, hk, hb]
      · have hi : findEndingAt text i = none := hnone i (le_refl _) (by omega)
        simp only [scanAux, hi]
        exact ih (i + 1) k b (by omega) (by omega)
          (fun j hj1 hj2 => hnone j (by omega) hj2) hk hb

/-- C7 (counterexample): the claim says the snapped boundary is never before
the raw 2000-character boundary.  For `c7Text` the scan starts 200 characters
*before* the raw boundary (`max(start + chunk_size - 200, start)`), finds the
sentence ending at position 1900, and snaps the boundary *backward* to 1902,
which is strictly before the raw boundary 2000. -/
theorem c7_counterexample :
    snapEnd c7Text 0 = 1902 ∧ 1902 < 0 + chunk_size := by
  constructor
  · have hlt : 0 + chunk_size < c7Text.length := by
      rw [c7Text_length, chunk_size]; omega
    rw [snapEnd]
    simp only [if_pos hlt]
    have hmax : max (0 + chunk_size - 200) 0 = 1800 := by rw [chunk_size]; omega
    have hmin : min (0 + chunk_size + 100) c7Text.length = 2100 := by
      rw [c7Text_length, chunk_size]; omega
    rw [hmax, hmin]
    exact scanAux_stops c7Text (0 + chunk_size) (2100 - 1800) 1800 1900 1902
      (by omega) (by omega)
      (fun j hj1 hj2 => c7_findEnding_none j hj1 hj2)
      c7_findEnding_at_1900
      (by rw [chunk_size]; omega)
  · rw [chunk_size]; omega

/-- C7 (amended): when the window is interior (`start + 2000 < len(text)`),
the boundary produced by the chunker either stays at the raw boundary or is
snapped to a sentence ending found inside the scan window, which begins 200
characters *before* the raw boundary and extends at most 100 characters past
it: the snapped boundary lies between `raw - 198` and `raw + 101`, and may
therefore fall before the raw boundary.  When no sentence ending occurs in the
window, the boundary falls back to the raw boundary. -/
theorem c7_amended_boundary_window (text : List Char) (start : Nat)
    (h : start + chunk_size < text.length) :
    (snapEnd text start = start + chunk_size ∨
      (start + 1802 ≤ snapEnd text start ∧ snapEnd text start ≤ start + 2101)) ∧
    ((∀ j, start + 1800 ≤ j → j < min (start + chunk_size + 100) text.length →
        findEndingAt text j = none) →
      snapEnd text start = start + chunk_size) := by
  have hmax : max (start + chunk_size - 200) start = start + 1800 := by
    simp only [chunk_size]; omega
  have hsnap : snapEnd text start =
      scanAux text (start + chunk_size) (start + 1800)
        (min (start + chunk_size + 100) text.length - (start + 1800)) := by
    simp only [snapEnd, if_pos h, hmax]
  constructor
  · rw [hsnap]
    rcases scanAux_cases text (start + chunk_size)
        (min (start + chunk_size + 100) text.length - (start + 1800)) (start + 1800) with
      hc | ⟨j, hj1, hj2, hj3⟩
    · left; rw [hc]
    · right
      rw [hj3]
      have : min (start + chunk_size + 100) text.length ≤ start + chunk_size + 100 :=
        min_le_left _ _
      simp only [chunk_size] at *
      omega
  · intro hnone
    rw [hsnap]
    apply scanAux_no_match
    intro j hj1 hj2
    apply hnone j hj1
    have hlo : start + 1800 ≤ min (start + chunk_size + 100) text.length := by
      have h1 : start + 1800 ≤ start + chunk_size + 100 := by simp only [chunk_size]; omega
      have h2 : start + 1800 ≤ text.length := by simp only [chunk_size] at h; omega
      exact le_min h1 h2
    omega

/-- C7 amended, witnessed on `c7Text` at `start = 0`. -/
theorem c7_amended_witness :
    ((snapEnd c7Text 0 = 0 + chunk_size ∨
       (0 + 1802 ≤ snapEnd c7Text 0 ∧ snapEnd c7Text 0 ≤ 0 + 2101)) ∧
     ((∀ j, 0 + 1800 ≤ j → j < min (0 + chunk_size + 100) c7Text.length →
         findEndingAt c7Text j = none) →
       snapEnd c7Text 0 = 0 + chunk_size)) :=
  c7_amended_boundary_window c7Text 0 (by rw [c7Text_length]; decide)

/-- C8: re-chunking identical document text yields an identical ordered chunk
sequence — same count, same boundaries, same `chunk_index` values, chunk order
preserved.  The embedded chunker is a pure function of its input (the source
uses only the fixed constants and the input text: no randomness, clock, or
shared mutable state), so two runs on equal input lists agree exactly. -/
theorem c8_chunk_determinism (docs1 docs2 : List Document) (h : docs1 = docs2) :
    create_semantic_chunks docs1 = create_semantic_chunks docs2 ∧
    (create_semantic_chunks docs1).length = (create_semantic_chunks docs2).length ∧
    (create_semantic_chunks docs1).map Chunk.chunk_index =
      (create_semantic_chunks docs2).map Chunk.chunk_index := by
  subst h
  exact ⟨rfl, rfl, rfl⟩

/-- C8 witnessed on a concrete one-document list. -/
theorem c8_witness :
    create_semantic_chunks [{ filename := "a.pdf", text := List.replicate 150 'x' }] =
      create_semantic_chunks [{ filename := "a.pdf", text := List.replicate 150 'x' }] ∧
    (create_semantic_chunks [{ filename := "a.pdf", text := List.replicate 150 'x' }]).length =
      (create_semantic_chunks [{ filename := "a.pdf", text := List.replicate 150 'x' }]).length ∧
    (create_semantic_chunks [{ filename := "a.pdf", text := List.replicate 150 'x' }]).map
        Chunk.chunk_index =
      (create_semantic_chunks [{ filename := "a.pdf", text := List.replicate 150 'x' }]).map
        Chunk.chunk_index :=
  c8_chunk_determinism _ _ rfl

/- ### Claims C3, C4: validation and retry in the generator -/

/-- A parsed response with three steps, one of which has an empty explanation:
below the 50% threshold. -/
def c3Data : ProtocolData :=
  { title := some "Airway Management",
    checklist :=
      [(some { text := "Check airway",
               explanation := "Confirm the airway is clear before proceeding.",
               citation := 1 } : Option StepItem),
       (some { text := "Give oxygen", explanation := "", citation := 1 } : Option StepItem),
       (some { text := "Monitor vitals",
               explanation := "Observe pulse and blood pressure continuously.",
               citation := 1 } : Option StepItem)],
    citations := ["Source text"] }

/-- C3 (counterexample): the claim says every step of an accepted non-empty
protocol has an explanation of length at least 10 and a positive citation
index, or else the protocol is marked incomplete.  `c3Data` has a step with an
empty explanation, yet validation accepts it as fully valid (`(true, "")`) —
only *more than 50%* incomplete steps cause rejection — and the generator
returns it unchanged in a result dict that has no flag field at all. -/
theorem c3_counterexample :
    validate_protocol_response c3Data = (true, "") ∧
    (∃ st : StepItem, (some st : Option StepItem) ∈ c3Data.checklist ∧
      (pyStripStr st.explanation).length < 10) ∧
    generate_protocol_from_chunk (fun _ => ModelResponse.parsed c3Data)
        "treatment" "doc.pdf" =
      { title := "Airway Management", checklist := c3Data.checklist,
        citations := c3Data.citations } := by
  refine ⟨by decide, ⟨{ text := "Give oxygen", explanation := "", citation := 1 }, ?_, by decide⟩, ?_⟩
  · decide
  · decide

/-- C3 (amended): a non-empty protocol is accepted by
`_validate_protocol_response` *exactly when* the 50% thresholds hold — its
citations array is non-empty, at most half its steps miss explanations
(stripped length below 10), and at most half miss citations (citation = 0) —
so individual steps may still violate the per-step rule; and every parsed
response, accepted ones included, is returned by the generator verbatim as a
dict with only the title/checklist/citations keys: there is no
incomplete/flag marker of any kind. -/
theorem c3_amended_validation_threshold (d : ProtocolData)
    (hne : d.checklist ≠ []) :
    ((validate_protocol_response d).1 = true ↔
      (d.citations ≠ [] ∧
       2 * missingExplanations d ≤ d.checklist.length ∧
       2 * missingCitations d ≤ d.checklist.length)) ∧
    (∀ (model : Nat → ModelResponse) (protocol_type source_file : String),
      model 0 = ModelResponse.parsed d →
      generate_protocol_from_chunk model protocol_type source_file =
        { title := pyStripStr (d.title.getD (pyTitle protocol_type ++ " Protocol")),
          checklist := d.checklist, citations := d.citations }) := by
  have h1 : d.checklist.isEmpty = false := by
    cases hcl : d.checklist with
    | nil => exact absurd hcl hne
    | cons a l => rfl
  constructor
  · constructor
    · intro hv
      simp only [validate_protocol_response, h1, Bool.false_eq_true, if_false] at hv
      cases hc : d.citations.isEmpty with
      | true => rw [hc] at hv; simp at hv
      | false =>
          rw [hc] at hv
          simp only [Bool.false_eq_true, if_false] at hv
          have hcit : d.citations ≠ [] := by
            intro hnil
            rw [hnil] at hc
            simp at hc
          by_cases h2 : 2 * missingExplanations d > d.checklist.length
          · rw [if_pos h2] at hv; simp at hv
          · rw [if_neg h2] at hv
            by_cases h3 : 2 * missingCitations d > d.checklist.length
            · rw [if_pos h3] at hv; simp at hv
            · exact ⟨hcit, by omega, by omega⟩
    · rintro ⟨hcit, hme, hmc⟩
      have hc : d.citations.isEmpty = false := by
        cases hcl2 : d.citations with
        | nil => exact absurd hcl2 hcit
        | cons a l => rfl
      simp only [validate_protocol_response, h1, Bool.false_eq_true, if_false, hc]
      rw [if_neg (by omega), if_neg (by omega)]
  · intro model protocol_type source_file h
    have hr : List.range max_retries = [0] := rfl
    rw [generate_protocol_from_chunk, hr, genAttemptLoop, h]
    show (if (validate_protocol_response d).1 = false ∧ 0 < max_retries - 1 then
        genAttemptLoop model protocol_type source_file []
      else
        { title := pyStripStr (d.title.getD (pyTitle protocol_type ++ " Protocol")),
          checklist := d.checklist, citations := d.citations }) =
      { title := pyStripStr (d.title.getD (pyTitle protocol_type ++ " Protocol")),
        checklist := d.checklist, citations := d.citations }
    rw [if_neg (fun hcon => absurd hcon.2 (by decide))]

/-- C3 amended, witnessed on `c3Data`: the acceptance characterization at a
concrete accepted input, and the concrete unflagged verbatim result. -/
theorem c3_amended_witness :
    ((validate_protocol_response c3Data).1 = true ↔
      (c3Data.citations ≠ [] ∧
       2 * missingExplanations c3Data ≤ c3Data.checklist.length ∧
       2 * missingCitations c3Data ≤ c3Data.checklist.length)) ∧
    generate_protocol_from_chunk (fun _ => ModelResponse.parsed c3Data)
        "treatment" "doc.pdf" =
      { title := pyStripStr (c3Data.title.getD (pyTitle "treatment" ++ " Protocol")),
        checklist := c3Data.checklist, citations := c3Data.citations } :=
  ⟨(c3_amended_validation_threshold c3Data (by decide)).1,
   (c3_amended_validation_threshold c3Data (by decide)).2
     (fun _ => ModelResponse.parsed c3Data) "treatment" "doc.pdf" rfl⟩

/-- A parsed response with four steps, three of which have empty explanations:
fails validation ("3/4 steps missing explanations"). -/
def c4Data : ProtocolData :=
  { title := some "Bad Protocol",
    checklist :=
      [(some { text := "Step one",
               explanation := "A complete explanation of the first action.",
               citation := 1 } : Option StepItem),
       (some { text := "Step two", explanation := "", citation := 1 } : Option StepItem),
       (some { text := "Step three", explanation := "", citation := 1 } : Option StepItem),
       (some { text := "Step four", explanation := "", citation := 1 } : Option StepItem)],
    citations := ["excerpt"] }

/-- C4: `max_retries = 1`, so the attempt loop runs exactly once and the
retry-with-intensified-prompt branch (`attempt < max_retries - 1`) is
unreachable.  `c4Data` fails the completeness check, yet for *every* model
whose first response parses to `c4Data` — regardless of what any later attempt
would return — the function returns the incomplete data immediately and
unflagged: no retry attempt is ever made. -/
theorem c4_no_retry_single_attempt :
    validate_protocol_response c4Data = (false, "3/4 steps missing explanations") ∧
    ∀ model : Nat → ModelResponse, model 0 = ModelResponse.parsed c4Data →
      generate_protocol_from_chunk model "diagnostic" "doc.pdf" =
        { title := "Bad Protocol", checklist := c4Data.checklist,
          citations := c4Data.citations } := by
  refine ⟨by decide, ?_⟩
  intro model h
  have hr : List.range max_retries = [0] := rfl
  rw [generate_protocol_from_chunk, hr, genAttemptLoop, h]
  show (if (validate_protocol_response c4Data).1 = false ∧ 0 < max_retries - 1 then
      genAttemptLoop model "diagnostic" "doc.pdf" []
    else
      { title := pyStripStr (c4Data.title.getD (pyTitle "diagnostic" ++ " Protocol")),
        checklist := c4Data.checklist, citations := c4Data.citations }) =
    { title := "Bad Protocol", checklist := c4Data.checklist,
      citations := c4Data.citations }
  rw [if_neg (by decide)]
  decide

/-- C4 witnessed on the constant model returning `c4Data`. -/
theorem c4_witness :
    generate_protocol_from_chunk (fun _ => ModelResponse.parsed c4Data)
        "diagnostic" "doc.pdf" =
      { title := "Bad Protocol", checklist := c4Data.checklist,
        citations := c4Data.citations } :=
  c4_no_retry_single_attempt.2 (fun _ => ModelResponse.parsed c4Data) rfl

/- ### Claim C9: per-pair failure isolation in the multi-pass generator -/

/-- The inner category loop appends exactly the per-pair contributions of its
remaining pairs, independent of the accumulator. -/
theorem genTypesLoop_characterization (gen : Nat → Nat → Except String GenOut)
    (user_id : String) (chunkIdx : Nat) :
    ∀ (tl : List (Nat × (String × String))) (acc : List Protocol),
      ∃ l, genTypesLoop gen false user_id chunkIdx tl acc = some l ∧
        l.map protocolCore = acc.map protocolCore ++
          tl.filterMap (fun q => acceptedOfPair gen chunkIdx q.1 q.2.1) := by
  intro tl
  induction tl with
  | nil => intro acc; exact ⟨acc, rfl, by simp⟩
  | cons q rest ih =>
      intro acc
      obtain ⟨typeIdx, pt⟩ := q
      cases hg : gen chunkIdx typeIdx with
      | error e =>
          obtain ⟨l, h1, h2⟩ := ih acc
          refine ⟨l, ?_, ?_⟩
          · simp only [genTypesLoop, if_neg (by simp : ¬ (false = true)), hg]
            exact h1
          · rw [h2, List.filterMap_cons]
            simp [acceptedOfPair, hg]
      | ok r =>
          by_cases he : r.checklist.isEmpty
          · obtain ⟨l, h1, h2⟩ := ih acc
            refine ⟨l, ?_, ?_⟩
            · simp only [genTypesLoop, if_neg (by simp : ¬ (false = true)), hg, if_pos he]
              exact h1
            · rw [h2, List.filterMap_cons]
              simp [acceptedOfPair, hg, he]
          · obtain ⟨l, h1, h2⟩ := ih (acc ++ [mkUploadProtocol user_id acc.length pt.1 r])
            refine ⟨l, ?_, ?_⟩
            · simp only [genTypesLoop, if_neg (by simp : ¬ (false = true)), hg, if_neg he]
              exact h1
            · rw [h2, List.filterMap_cons]
              simp [acceptedOfPair, hg, he, mkUploadProtocol, protocolCore]

/-- The outer chunk loop concatenates the per-chunk contributions. -/
theorem genChunksLoop_characterization (gen : Nat → Nat → Except String GenOut)
    (user_id : String) :
    ∀ (cl : List (Nat × Chunk)) (acc : List Protocol),
      ∃ l, genChunksLoop gen false user_id cl acc = some l ∧
        l.map protocolCore = acc.map protocolCore ++
          (cl.map (fun p =>
            protocol_types.enum.filterMap (fun q => acceptedOfPair gen p.1 q.1 q.2.1))).flatten := by
  intro cl
  induction cl with
  | nil => intro acc; exact ⟨acc, rfl, by simp⟩
  | cons p rest ih =>
      intro acc
      obtain ⟨chunkIdx, c⟩ := p
      obtain ⟨mid, hm1, hm2⟩ :=
        genTypesLoop_characterization gen user_id chunkIdx protocol_types.enum acc
      obtain ⟨l, h1, h2⟩ := ih mid
      refine ⟨l, ?_, ?_⟩
      · simp only [genChunksLoop, if_neg (by simp : ¬ (false = true)), hm1]
        exact h1
      · rw [h2, hm2, List.map_cons, List.flatten_cons, List.append_assoc]

/-- C9: absent cancellation, the multi-pass generator never aborts — it always
returns a protocol list — and that list is exactly the concatenation of the
independent per-(chunk, category) contributions: a failing pair (raised model
call, i.e. `Except.error`) contributes nothing for itself but every other
non-failing pair with a non-empty checklist still contributes its protocol. -/
theorem c9_failure_isolation (gen : Nat → Nat → Except String GenOut)
    (chunks : List Chunk) (user_id : String) :
    ∃ ps, generate_protocols_from_chunks gen false chunks user_id = some ps ∧
      ps.map protocolCore = expectedCores gen chunks := by
  obtain ⟨l, h1, h2⟩ :=
    genChunksLoop_characterization gen user_id (chunks.take 5).enum []
  exact ⟨l, h1, by rw [h2]; simp [expectedCores]⟩

/- ### Claim C6: archive extraction failure is terminal -/

/-- The extraction filter produces an empty list of pdf files exactly when no
entry survives the match predicate. -/
theorem extract_filterMap_empty_iff (entries : List ZipEntry) :
    (entries.filterMap (fun e =>
      if pdfEntryMatch e then
        some { filename := e.filename,
               safe_filename := sanitizeFilename (pyBasename e.filename),
               size := e.content.length,
               content := e.content : PdfFile }
      else none)).isEmpty = (entries.filter pdfEntryMatch).isEmpty := by
  induction entries with
  | nil => rfl
  | cons e rest ih =>
      by_cases hm : pdfEntryMatch e
      · simp [List.filterMap_cons, List.filter_cons, hm]
      · simp only [List.filterMap_cons, List.filter_cons, hm]
        simpa using ih

/-- C6: extraction fails (raises, modelled as `Except.error`) exactly when the
archive is malformed or no non-directory `.pdf` entry survives filtering; and
an extraction failure is terminal — `process_upload` ends with
`success = False`, status `failed`, and the preview store is untouched (no
partial success is recorded). -/
theorem c6_extraction_error_terminal :
    (∀ a : ZipArchive, (∃ m, extract_zip a = Except.error m) ↔
      (a = ZipArchive.malformed ∨
        ∃ es, a = ZipArchive.wellformed es ∧ es.filter pdfEntryMatch = [])) ∧
    (∀ (s : ProcState) (u i : String) (a : ZipArchive)
        (extractDocs : List PdfFile → List Document)
        (gen : Nat → Nat → Except String GenOut) (m : String),
      extract_zip a = Except.error m →
      (process_upload s u i a extractDocs gen).2 =
        { success := some false, status := "failed" } ∧
      (process_upload s u i a extractDocs gen).1.previews = s.previews) := by
  constructor
  · intro a
    cases a with
    | malformed => exact ⟨fun _ => Or.inl rfl, fun _ => ⟨_, rfl⟩⟩
    | wellformed es =>
        simp only [extract_zip]
        cases hfm : (es.filterMap (fun e =>
            if pdfEntryMatch e then
              some { filename := e.filename,
                     safe_filename := sanitizeFilename (pyBasename e.filename),
                     size := e.content.length,
                     content := e.content : PdfFile }
            else none)).isEmpty with
        | true =>
            have hfe : (es.filter pdfEntryMatch).isEmpty = true := by
              rw [← extract_filterMap_empty_iff]; exact hfm
            constructor
            · intro _
              exact Or.inr ⟨es, rfl, by rwa [List.isEmpty_iff] at hfe⟩
            · intro _
              refine ⟨"No PDF files found in ZIP archive", ?_⟩
              simp
        | false =>
            have hfe : (es.filter pdfEntryMatch).isEmpty = false := by
              rw [← extract_filterMap_empty_iff]; exact hfm
            constructor
            · rintro ⟨m, hm⟩
              simp at hm
            · rintro (h | ⟨es2, he, hf⟩)
              · exact absurd h (by simp)
              · injection he with hes
                subst hes
                rw [hf] at hfe
                simp at hfe
  · intro s u i a extractDocs gen m hm
    constructor
    · simp only [process_upload, hm]
    · simp only [process_upload, hm, finishTask]

/-- C6 witnessed on a malformed archive. -/
theorem c6_witness :
    ((∃ m, extract_zip ZipArchive.malformed = Except.error m) ↔
      (ZipArchive.malformed = ZipArchive.malformed ∨
        ∃ es, ZipArchive.malformed = ZipArchive.wellformed es ∧
          es.filter pdfEntryMatch = [])) ∧
    ((process_upload c1State "u" "a" ZipArchive.malformed (fun _ => [])
        (fun _ _ => Except.error "no model")).2 =
      { success := some false, status := "failed" } ∧
     (process_upload c1State "u" "a" ZipArchive.malformed (fun _ => [])
        (fun _ _ => Except.error "no model")).1.previews = c1State.previews) :=
  ⟨c6_extraction_error_terminal.1 ZipArchive.malformed,
   c6_extraction_error_terminal.2 c1State "u" "a" ZipArchive.malformed
     (fun _ => []) (fun _ _ => Except.error "no model") "Invalid ZIP file format" rfl⟩

end ProCheck
